import Mathlib

/-!
# libnetwork/netutils on FreeBSD: `InferReservedNetworks`

Source: `libnetwork/netutils/utils_freebsd.go`

```go
// InferReservedNetworks returns an empty list on FreeBSD.
func InferReservedNetworks(v6 bool) []netip.Prefix {
	return []netip.Prefix{}
}
```

The development has three layers.

* The data model: Go slices, which distinguish the `nil` slice from a
  non-nil slice of length zero, and the element type `netip.Prefix`.
* The function itself, once as a pure function of its argument and once as
  a computation over an explicit program state that may return or panic.
* The properties of the function.
-/

namespace Netutils

/-! ## Data model -/

/-- Modelled from the spec: the element type `netip.Prefix` and its address
type `netip.Addr` belong to the Go standard library, so their declarations
are not part of this repository. The spec describes the element as "a
network address together with a prefix length". An address is its family
and its numeric value. -/
structure Addr where
  is6 : Bool
  value : Nat
deriving DecidableEq, Repr

/-- Modelled from the spec: `netip.Prefix`, "a network address together with
a prefix length, denoting a contiguous range of addresses", for instance
`10.0.0.0/8`. -/
structure Prefix where
  addr : Addr
  bits : Nat
deriving DecidableEq, Repr

/-- A Go slice value of element type `α`. Go distinguishes the `nil` slice,
which has no backing array, from a slice that has a backing array; the
latter carries its elements (`len` of them) and its capacity. -/
inductive Slice (α : Type) where
  | nil : Slice α
  | backed (elems : List α) (cap : Nat) : Slice α
deriving DecidableEq, Repr

namespace Slice

variable {α : Type}

/-- The Go test `s == nil`. -/
def isNil : Slice α → Bool
  | nil => true
  | backed _ _ => false

/-- The elements of a slice in order; what `for _, x := range s` visits. -/
def toList : Slice α → List α
  | nil => []
  | backed xs _ => xs

/-- The Go builtin `len(s)`. -/
def len : Slice α → Nat
  | nil => 0
  | backed xs _ => xs.length

/-- The Go builtin `cap(s)`. -/
def cap : Slice α → Nat
  | nil => 0
  | backed _ c => c

/-- The composite literal `[]T{x1, ..., xn}`: a non-nil slice over a fresh
array of exactly `n` elements, so its length and capacity are both `n`. -/
def lit (xs : List α) : Slice α :=
  backed xs xs.length

/-- The indexed store `s[i] = v`. It writes into the backing array when
`i < len(s)` and panics with an index-out-of-range error otherwise;
`none` stands for the panic. -/
def set (s : Slice α) (i : Nat) (v : α) : Option (Slice α) :=
  match s with
  | nil => none
  | backed xs c => if i < xs.length then some (backed (xs.set i v) c) else none

end Slice

/-! ## Effects -/

/-- How a Go function call ends: it returns a value or it panics. -/
inductive Outcome (α : Type) where
  | returned (v : α) : Outcome α
  | panicked (msg : String) : Outcome α
deriving DecidableEq, Repr

/-- A Go computation over an explicit program state `σ` (package-level
variables, the heap as seen by other code, the outside world): it takes
the state before the call and gives the outcome and the state after. -/
def GoM (σ α : Type) : Type :=
  σ → Outcome α × σ

namespace GoM

variable {σ α : Type}

/-- The statement `return v`: the call ends normally with `v` and the state
is the one the statement found. -/
def ret (v : α) : GoM σ α :=
  fun s => (Outcome.returned v, s)

/-- Run a computation from a starting state. -/
def run (m : GoM σ α) (s : σ) : Outcome α × σ :=
  m s

end GoM

/-! ## The function -/

set_option linter.unusedVariables false

/-- `InferReservedNetworks` of `utils_freebsd.go`: the body is the single
statement `return []netip.Prefix{}`, an empty composite literal. The
parameter `v6` does not occur in the body. -/
def InferReservedNetworks (v6 : Bool) : Slice Prefix :=
  Slice.lit []

/-- `InferReservedNetworks` as a computation over an explicit program state:
the body has one statement, `return []netip.Prefix{}`, and evaluating the
composite literal reads and writes nothing. -/
def InferReservedNetworksM {σ : Type} (v6 : Bool) : GoM σ (Slice Prefix) :=
  GoM.ret (Slice.lit [])

/-! ## Helper lemmas -/

/-- The pure function unfolds to the non-nil slice with no elements and no
capacity, whatever the argument. -/
theorem InferReservedNetworks_unfold (v6 : Bool) :
    InferReservedNetworks v6 = Slice.backed [] 0 :=
  rfl

/-- The stateful embedding returns what the pure function computes and hands
the state back. -/
theorem InferReservedNetworksM_run {σ : Type} (v6 : Bool) (s : σ) :
    (InferReservedNetworksM v6).run s = (Outcome.returned (InferReservedNetworks v6), s) :=
  rfl

/-! ## Properties -/

/-- C1: for every boolean `v6`, `InferReservedNetworks v6` is an empty
sequence of prefixes: it has no elements and its length is 0. In particular
the results for `false` and for `true` are empty. -/
theorem InferReservedNetworks_empty :
    (∀ v6 : Bool, (InferReservedNetworks v6).toList = [] ∧ (InferReservedNetworks v6).len = 0)
      ∧ (InferReservedNetworks false).toList = []
      ∧ (InferReservedNetworks true).toList = [] := by
  refine ⟨fun v6 => ?_, rfl, rfl⟩
  rw [InferReservedNetworks_unfold]
  exact ⟨rfl, rfl⟩

/-- C2: for every boolean `v6`, the result of `InferReservedNetworks v6` is
not the nil slice: it is a present slice value whose length is 0. -/
theorem InferReservedNetworks_not_nil (v6 : Bool) :
    (InferReservedNetworks v6).isNil = false
      ∧ InferReservedNetworks v6 ≠ Slice.nil
      ∧ (InferReservedNetworks v6).len = 0 := by
  rw [InferReservedNetworks_unfold]
  exact ⟨rfl, fun h => Slice.noConfusion h, rfl⟩

/-- C3: `InferReservedNetworks` cannot fail: from every program state and for
every boolean `v6` the call ends by returning a value, and it never ends in a
panic. The embedding is a total function without fuel, so the call always
terminates. -/
theorem InferReservedNetworksM_returns {σ : Type} (v6 : Bool) (s : σ) :
    (∃ r : Slice Prefix, ((InferReservedNetworksM v6).run s).1 = Outcome.returned r)
      ∧ ∀ msg : String, ((InferReservedNetworksM v6).run s).1 ≠ Outcome.panicked msg := by
  rw [InferReservedNetworksM_run]
  exact ⟨⟨InferReservedNetworks v6, rfl⟩, fun msg h => Outcome.noConfusion h⟩

/-- C4: `InferReservedNetworks` has no side effects: as a step over any
program state, for every boolean `v6` and every state the call leaves the
state exactly as it found it and only produces its return value, which is the
value of the pure function. -/
theorem InferReservedNetworksM_frame {σ : Type} (v6 : Bool) (s : σ) :
    ((InferReservedNetworksM v6).run s).2 = s
      ∧ ((InferReservedNetworksM v6).run s).1 = Outcome.returned (InferReservedNetworks v6) := by
  rw [InferReservedNetworksM_run]
  exact ⟨rfl, rfl⟩

/-- C5: repeated calls are idempotent. Call once from a state `s`, let the
caller do anything `g` with the first result and the state, then call again:
both results are the empty slice, they are equal, and the second result is
the one a single call from `s` gives, so it depends neither on the first call
nor on what was done with its result. The first result has capacity 0, so no
indexed store into it succeeds: there is no backing element to share. -/
theorem InferReservedNetworksM_idempotent {σ : Type} (v6 : Bool) (s : σ)
    (g : Outcome (Slice Prefix) → σ → σ) :
    let first := (InferReservedNetworksM v6).run s
    let second := (InferReservedNetworksM v6).run (g first.1 first.2)
    first.1 = Outcome.returned (Slice.lit [])
      ∧ second.1 = Outcome.returned (Slice.lit [])
      ∧ second.1 = first.1
      ∧ second.1 = ((InferReservedNetworksM v6).run s).1
      ∧ (InferReservedNetworks v6).cap = 0
      ∧ ∀ (i : Nat) (p : Prefix), (InferReservedNetworks v6).set i p = none := by
  intro first second
  refine ⟨rfl, rfl, rfl, rfl, rfl, fun i p => ?_⟩
  rw [InferReservedNetworks_unfold]
  simp [Slice.set]

/-- C7: the argument `v6` is ignored: `InferReservedNetworks true` and
`InferReservedNetworks false` are equal, and so are the results for any two
arguments. -/
theorem InferReservedNetworks_ignores_v6 :
    InferReservedNetworks true = InferReservedNetworks false
      ∧ ∀ a b : Bool, InferReservedNetworks a = InferReservedNetworks b :=
  ⟨rfl, fun _ _ => rfl⟩

/-- C8: no prefix is reported as reserved: for every boolean `v6` and every
prefix `p`, `p` is not an element of `InferReservedNetworks v6`; hence
removing the members of `InferReservedNetworks v6` from any list of
candidate prefixes leaves the list unchanged. -/
theorem InferReservedNetworks_no_member (v6 : Bool) :
    (∀ p : Prefix, p ∉ (InferReservedNetworks v6).toList)
      ∧ ∀ candidates : List Prefix,
          candidates.filter (fun c => decide (c ∉ (InferReservedNetworks v6).toList))
            = candidates := by
  rw [InferReservedNetworks_unfold]
  refine ⟨fun p h => ?_, fun candidates => ?_⟩
  · simp [Slice.toList] at h
  · simp [Slice.toList]

end Netutils
